import Mathlib

/-!
Shallow embedding of the rate-limited, authenticated mutation pipeline of the
`convex-tanstack-better-auth-cloudfare-terraform` template, covering:

* the message board Convex functions (`list`, `send`, `remove` in `convex/messages.ts`),
* the admin-grant mutation (`setAdminByEmail` in `convex/users.ts`),
* the rate-limit configuration (`RATE_LIMIT_DEFS` in
  `convex/lib/services/rateLimitService.ts`), and
* a model of the token-bucket admission algorithm of the external
  `@convex-dev/rate-limiter` component, taken from the specification
  (the algorithm itself is not part of this repository).

Conventions: TypeScript `string` becomes `String`, optional fields become
`Option`, thrown `Error`s become `Except String`, and the Convex document
store becomes an explicit association list threaded through each handler.
Token counts in the bucket model are stored scaled by the refill period so
that the continuous refill stays exact in integers.
-/

deriving instance DecidableEq for Except

/-- JavaScript `s.trim()`: strip leading and trailing whitespace. Embedded on
the character list of the string so that it evaluates inside the kernel. -/
def jsTrim (s : String) : String :=
  ⟨((s.data.dropWhile Char.isWhitespace).reverse.dropWhile Char.isWhitespace).reverse⟩

/-- JavaScript `s.length` (character count of the embedded string). -/
def jsLength (s : String) : Nat := s.data.length

/-- JavaScript `s.includes(c)` for a single-character needle. -/
def jsIncludesChar (s : String) (c : Char) : Bool := s.data.contains c

/-- Principal resolved by the identity service (`authComponent.getAuthUser`).
`_id` is the opaque document identifier, `name` the display name (a required
`string` on the Better Auth user record). -/
structure AuthUser where
  _id : String
  name : String
  deriving Repr, DecidableEq

/-- Raw outcome of `authComponent.getAuthUser(ctx)`: it can return a user,
return `null`, or throw. -/
abbrev AuthOutcome := Except String (Option AuthUser)

/-- Embedding of the `try { user = await authComponent.getAuthUser(ctx) } catch \x7b\x7d`
block in `send`: every thrown error is folded into the absent principal. -/
def resolveUser : AuthOutcome → Option AuthUser
  | Except.ok u => u
  | Except.error _ => none

/-- JavaScript `a || b` specialised to an optional string `a`: both `undefined`
and the empty string are falsy, so they fall through to the default. -/
def jsOrString : Option String → String → String
  | some s, d => if s = "" then d else s
  | none, d => d

/-- Rate-limit partition key of `send`: `user?._id || 'anonymous'`. -/
def deriveKey (user : Option AuthUser) : String :=
  jsOrString (user.map AuthUser._id) "anonymous"

/-- One token-bucket configuration from `RATE_LIMIT_DEFS`
(`kind: 'token bucket'` is the only kind used, so only the numeric fields are
modelled): `rate` tokens added per `period` milliseconds, burst `capacity`. -/
structure RateLimitConfig where
  rate : Nat
  period : Nat
  capacity : Nat
  deriving Repr, DecidableEq

/-- The `RATE_LIMIT_DEFS` object of `convex/lib/services/rateLimitService.ts`,
as an association list in source order. -/
def RATE_LIMIT_DEFS : List (String × RateLimitConfig) :=
  [ ("sendMessage", ⟨10, 60000, 15⟩)
  , ("uploadFile", ⟨5, 60000, 10⟩)
  , ("deleteFile", ⟨20, 60000, 25⟩)
  , ("apiCall", ⟨60, 60000, 80⟩)
  , ("loginAttempt", ⟨5, 60000, 5⟩)
  , ("registerUser", ⟨3, 3600000, 3⟩)
  , ("sendEmail", ⟨10, 3600000, 10⟩) ]

/-- State of one token bucket: the current token count, stored scaled by the
configuration's `period` (so the continuous refill of `rate` tokens per
`period` milliseconds stays exact in integers: a stored `scaledValue` means
`scaledValue / period` tokens), and the timestamp (ms) of the last update. -/
structure Bucket where
  scaledValue : Nat
  ts : Nat
  deriving Repr, DecidableEq

/-- Modelled from the spec: token-bucket refill of the external
`@convex-dev/rate-limiter` component (spec §4.3) — tokens replenish
continuously at `rate` per `period` milliseconds, capped at `capacity`. In
scaled units: add `rate * elapsed`, cap at `capacity * period`. -/
def refillAt (cfg : RateLimitConfig) (b : Bucket) (now : Nat) : Bucket :=
  ⟨min (cfg.capacity * cfg.period) (b.scaledValue + cfg.rate * (now - b.ts)), now⟩

/-- Modelled from the spec: token-bucket admission of the external
`@convex-dev/rate-limiter` component (spec §4.3) — refill, then admit and
consume exactly one token (`period` in scaled units) if at least one is
available, else reject leaving the bucket as it was. -/
def tryConsume (cfg : RateLimitConfig) (b : Bucket) (now : Nat) : Bool × Bucket :=
  if cfg.period ≤ (refillAt cfg b now).scaledValue then
    (true, ⟨(refillAt cfg b now).scaledValue - cfg.period, now⟩)
  else (false, b)

/-- Persistent limiter state: one bucket per `(operationName, key)` pair.
Lookup takes the most recent binding, so updates are modelled by consing. -/
abbrev LimiterState := List ((String × String) × Bucket)

/-- Bucket for `(name, key)` in state `st`: the stored one, or a fresh bucket
that starts full at `capacity` (spec §4.3) when the pair has no bucket yet. -/
def currentBucket (cfg : RateLimitConfig) (st : LimiterState) (name key : String) (now : Nat) : Bucket :=
  match st.lookup (name, key) with
  | some b => b
  | none => ⟨cfg.capacity * cfg.period, now⟩

/-- Modelled from the spec: `rateLimiter.limit(ctx, name, { key })` of the
external component — look up the named configuration, run token-bucket
admission for the caller's bucket, and throw when the call is rejected
(surfacing retry guidance, spec §4.3). -/
def rateLimit (defs : List (String × RateLimitConfig)) (st : LimiterState)
    (name key : String) (now : Nat) : Except String LimiterState :=
  match defs.lookup name with
  | none => Except.error ("No rate limit config: " ++ name)
  | some cfg =>
    if (tryConsume cfg (currentBucket cfg st name key now) now).1 then
      Except.ok (((name, key), (tryConsume cfg (currentBucket cfg st name key now) now).2) :: st)
    else Except.error "Rate limit exceeded, retry later"

/-- One stored `messages` document (schema `convex/schema.ts`): `content` is
required, `authorId` and `authorName` optional; the legacy `createdAt` field is
never written by the handlers modelled here and is omitted. -/
structure Message where
  content : String
  authorId : Option String
  authorName : Option String
  deriving Repr, DecidableEq

/-- Document store for the `messages` table: rows in insertion order, keyed by
a numeric id standing in for the Convex document id; `_creationTime` order
coincides with id order because `nextId` increases at every insert. -/
structure DB where
  rows : List (Nat × Message)
  nextId : Nat
  deriving Repr, DecidableEq

/-- Embedding of `ctx.db.insert('messages', …)`: append the document under a
fresh id and return that id. -/
def DB.insertMsg (db : DB) (m : Message) : Nat × DB :=
  (db.nextId, ⟨db.rows ++ [(db.nextId, m)], db.nextId + 1⟩)

/-- Embedding of `ctx.db.get(id)`. -/
def DB.getMsg (db : DB) (id : Nat) : Option Message :=
  db.rows.lookup id

/-- Embedding of `ctx.db.delete(id)`. -/
def DB.deleteMsg (db : DB) (id : Nat) : DB :=
  ⟨db.rows.filter (fun r => r.1 != id), db.nextId⟩

/-- Request context available to a handler: the auth component's behaviour for
this request, the document store, the limiter component's state, and the
current time in milliseconds. -/
structure Ctx where
  authOutcome : AuthOutcome
  db : DB
  limiter : LimiterState
  now : Nat

/-- Observable steps of the `send` handler, in execution order, used to state
the pipeline-ordering properties. -/
inductive Event where
  | validated (ok : Bool)
  | identityResolved
  | gateChecked (key : String) (admitted : Bool)
  | inserted
  deriving Repr, DecidableEq

/-- Content validation of `send` (`convex/messages.ts` lines 158–160): trim,
reject empty, reject over 2000 characters, else keep the trimmed content. -/
def validateContent (content : String) : Except String String :=
  if jsLength (jsTrim content) = 0 then Except.error "Message cannot be empty"
  else if jsLength (jsTrim content) > 2000 then Except.error "Message too long (max 2000 characters)"
  else Except.ok (jsTrim content)

/-- Result of one `send` invocation: the trace of observable steps, the
returned id or thrown error, and the resulting store and limiter state. -/
structure SendOutcome where
  trace : List Event
  result : Except String Nat
  db : DB
  limiter : LimiterState
  deriving Repr, DecidableEq

/-- Document built by `send` before insertion: the trimmed content, the
resolved principal's id (`user?._id`, absent for anonymous callers), and
`user?.name ?? 'Anonymous'` as the display name. -/
def mkMessage (trimmed : String) (user : Option AuthUser) : Message :=
  ⟨trimmed, user.map AuthUser._id, some ((user.map AuthUser.name).getD "Anonymous")⟩

/-- Embedding of the `send` mutation handler (`convex/messages.ts`): validate
content, resolve the principal without ever throwing, derive the rate-limit
key, consult the gate, and finally insert the document. -/
def send (ctx : Ctx) (content : String) : SendOutcome :=
  match validateContent content with
  | Except.error e => ⟨[Event.validated false], Except.error e, ctx.db, ctx.limiter⟩
  | Except.ok trimmed =>
    match rateLimit RATE_LIMIT_DEFS ctx.limiter "sendMessage"
        (deriveKey (resolveUser ctx.authOutcome)) ctx.now with
    | Except.error e =>
      ⟨[Event.validated true, Event.identityResolved,
        Event.gateChecked (deriveKey (resolveUser ctx.authOutcome)) false],
       Except.error e, ctx.db, ctx.limiter⟩
    | Except.ok st =>
      ⟨[Event.validated true, Event.identityResolved,
        Event.gateChecked (deriveKey (resolveUser ctx.authOutcome)) true, Event.inserted],
       Except.ok (ctx.db.insertMsg (mkMessage trimmed (resolveUser ctx.authOutcome))).1,
       (ctx.db.insertMsg (mkMessage trimmed (resolveUser ctx.authOutcome))).2, st⟩

/-- Modelled from the spec: `requireAuth` from `convex/lib/authHelpers.ts`
(not among the sources; spec §7 — a caller without a resolvable principal is
rejected): yield the authenticated principal or throw. -/
def requireAuth : AuthOutcome → Except String AuthUser
  | Except.ok (some u) => Except.ok u
  | _ => Except.error "Not authenticated"

/-- Embedding of the `remove` mutation handler (`convex/messages.ts`): require
authentication, look the message up, reject when the caller is not its author,
else delete it. Returns the thrown error or unit, and the resulting store. -/
def remove (ctx : Ctx) (id : Nat) : Except String Unit × DB :=
  match requireAuth ctx.authOutcome with
  | Except.error e => (Except.error e, ctx.db)
  | Except.ok user =>
    match ctx.db.getMsg id with
    | none => (Except.error "Message not found", ctx.db)
    | some message =>
      if message.authorId ≠ some user._id then
        (Except.error "Not authorized to delete this message", ctx.db)
      else
        (Except.ok (), ctx.db.deleteMsg id)

/-- Embedding of the `list` query (`convex/messages.ts`):
`ctx.db.query('messages').order('desc').take(50)` — the 50 most recent
documents, newest first. A query returns the store unchanged. -/
def listQuery (db : DB) : List (Nat × Message) × DB :=
  (db.rows.reverse.take 50, db)

/-- Return value of `setAdminByEmail`. -/
structure AdminGrantResult where
  success : Bool
  email : String
  action : String
  instruction : String
  deriving Repr, DecidableEq

/-- Embedding of the `setAdminByEmail` mutation handler (`convex/users.ts`):
the auth check is commented out and `_ctx` is unused, so the handler reads
nothing from the context; it throws on an email without `'@'` (JS
`!args.email || !args.email.includes('@')`) and otherwise only logs an
instruction and returns it — the context comes back unchanged. -/
def setAdminByEmail (ctx : Ctx) (email : String) (isAdminArg : Bool) :
    Except String AdminGrantResult × Ctx :=
  if email = "" ∨ ¬ jsIncludesChar email '@' then
    (Except.error "Invalid email address", ctx)
  else
    let action := if isAdminArg then "grant" else "revoke"
    let instruction :=
      if isAdminArg then s!"Add \"{email}\" to ADMIN_EMAILS in convex/lib/config.ts"
      else s!"Remove \"{email}\" from ADMIN_EMAILS in convex/lib/config.ts"
    (Except.ok ⟨true, email, action, instruction⟩, ctx)

/-- Iterated gate calls for one `(name, key)` pair, threading limiter state:
the list records each call's admission verdict. -/
def rateLimitN (defs : List (String × RateLimitConfig)) (st : LimiterState)
    (name key : String) (now : Nat) : Nat → List Bool × LimiterState
  | 0 => ([], st)
  | n + 1 =>
    match rateLimit defs st name key now with
    | Except.ok st2 =>
      (true :: (rateLimitN defs st2 name key now n).1, (rateLimitN defs st2 name key now n).2)
    | Except.error _ =>
      (false :: (rateLimitN defs st name key now n).1, (rateLimitN defs st name key now n).2)

/-- Iterated single-bucket admission, recording each verdict. -/
def consumeN (cfg : RateLimitConfig) (b : Bucket) (now : Nat) : Nat → List Bool × Bucket
  | 0 => ([], b)
  | n + 1 =>
    ((tryConsume cfg b now).1 :: (consumeN cfg (tryConsume cfg b now).2 now n).1,
     (consumeN cfg (tryConsume cfg b now).2 now n).2)

/-- Sequential `send` calls by one caller: thread the store and limiter state
through, recording each call's result. -/
def sendMany (ctx : Ctx) (content : String) : Nat → List (Except String Nat) × Ctx
  | 0 => ([], ctx)
  | n + 1 =>
    let o := send ctx content
    let rest := sendMany { ctx with db := o.db, limiter := o.limiter } content n
    (o.result :: rest.1, rest.2)

/-- Boolean success test for an embedded thrown-or-returned result. -/
def exceptOk : Except String Nat → Bool
  | Except.ok _ => true
  | Except.error _ => false

/-- Number of rate-limit gate calls recorded in a `send` trace. -/
def gateEvents (t : List Event) : Nat :=
  t.countP fun e => match e with
    | Event.gateChecked _ _ => true
    | _ => false

/-- Row of the operation-quota table of spec §6, written exactly as the spec
prints it (`name`, `kind`, rate in tokens per window, `window_ms`, capacity). -/
structure SpecQuotaRow where
  name : String
  kind : String
  rate : Nat
  window_ms : Nat
  capacity : Nat
  deriving Repr, DecidableEq

/-- The operation-quota table transcribed from spec §6. -/
def specQuotaTable : List SpecQuotaRow :=
  [ ⟨"sendMessage", "token bucket", 10, 60000, 15⟩
  , ⟨"uploadFile", "token bucket", 5, 60000, 10⟩
  , ⟨"deleteFile", "token bucket", 20, 60000, 25⟩
  , ⟨"apiCall", "token bucket", 60, 60000, 80⟩
  , ⟨"loginAttempt", "token bucket", 5, 60000, 5⟩
  , ⟨"registerUser", "token bucket", 3, 3600000, 3⟩
  , ⟨"sendEmail", "token bucket", 10, 3600000, 10⟩ ]

/-- Anonymous request context over an empty store, a fresh limiter, time 0. -/
def ctx0 : Ctx := ⟨Except.ok none, ⟨[], 0⟩, [], 0⟩

/-- Authenticated principal `u1` of the spec's end-to-end scenarios. -/
def userU1 : AuthUser := ⟨"u1", "User One"⟩

/-- Request context of `u1` over an empty store, a fresh limiter, time 0. -/
def ctx1 : Ctx := ⟨Except.ok (some userU1), ⟨[], 0⟩, [], 0⟩

/-- A message authored by a different user (`u2`). -/
def msgByU2 : Message := ⟨"hi", some "u2", some "User Two"⟩

/-- Store holding only `msgByU2` under id 0. -/
def dbWithU2Msg : DB := ⟨[(0, msgByU2)], 1⟩

/-- Context of authenticated `u1` over the store holding `u2`'s message. -/
def ctxU1overU2 : Ctx := ⟨Except.ok (some userU1), dbWithU2Msg, [], 0⟩

/-- Store with three messages, ids 0, 1, 2 in creation order. -/
def dbThree : DB :=
  ⟨[ (0, ⟨"a", none, some "Anonymous"⟩)
   , (1, ⟨"b", none, some "Anonymous"⟩)
   , (2, ⟨"c", none, some "Anonymous"⟩) ], 3⟩

/-- String of `n` repetitions of the letter `a` (no surrounding whitespace),
used for the 2000/2001-character validation boundary. -/
def strN (n : Nat) : String := ⟨List.replicate n 'a'⟩

/-! Helper lemmas. -/

theorem dropWhile_eq_self_of_none {p : Char → Bool} {l : List Char}
    (h : ∀ c ∈ l, p c = false) : l.dropWhile p = l := by
  cases l with
  | nil => rfl
  | cons a t => simp [List.dropWhile_cons, h a (List.mem_cons_self a t)]

theorem jsTrim_strN (n : Nat) : jsTrim (strN n) = strN n := by
  have h : ∀ c ∈ List.replicate n 'a', Char.isWhitespace c = false := by
    intro c hc
    rw [List.eq_of_mem_replicate hc]
    decide
  show String.mk _ = _
  rw [show (strN n).data = List.replicate n 'a' from rfl]
  rw [dropWhile_eq_self_of_none h]
  rw [dropWhile_eq_self_of_none (fun c hc => h c (List.mem_reverse.mp hc))]
  rw [List.reverse_reverse]
  rfl

theorem jsLength_jsTrim_strN (n : Nat) : jsLength (jsTrim (strN n)) = n := by
  rw [jsTrim_strN]
  simp [jsLength, strN]

theorem lookup_satisfies {α β : Type} [BEq α] (P : β → Prop) :
    ∀ (l : List (α × β)) (a : α) (b : β), (∀ p ∈ l, P p.2) → l.lookup a = some b → P b := by
  intro l
  induction l with
  | nil => intro a b _ hl; simp [List.lookup] at hl
  | cons hd tl ih =>
    intro a b hall hl
    rw [List.lookup] at hl
    by_cases hk : (a == hd.1) = true
    · rw [hk] at hl
      simp at hl
      rw [← hl]
      exact hall hd (List.mem_cons_self hd tl)
    · rw [Bool.not_eq_true] at hk
      rw [hk] at hl
      exact ih a b (fun p hp => hall p (List.mem_cons_of_mem hd hp)) hl

theorem period_pos_of_lookup {name : String} {cfg : RateLimitConfig}
    (h : RATE_LIMIT_DEFS.lookup name = some cfg) : 0 < cfg.period :=
  lookup_satisfies (fun c => 0 < c.period) RATE_LIMIT_DEFS name cfg (by decide) h

/-! Claim theorems. -/

/-- C1 (counterexample): the claim says a request whose content fails
validation still consumes a rate-limit check before any validation verdict is
produced. On the code this is false: sending the empty string produces the
empty-content verdict while the trace contains zero gate calls. -/
theorem C1_counterexample :
    (send ctx0 "").result = Except.error "Message cannot be empty" ∧
    (send ctx0 "").trace = [Event.validated false] ∧
    gateEvents (send ctx0 "").trace = 0 := by
  decide

/-- C1 (amended): in `send`, content validation comes first; the rate-limit
gate call occurs only after identity resolution and only after a passing
validation verdict, and the gate key is derived from the resolved principal —
the literal `"anonymous"` when no principal is present, so an unauthenticated
caller whose content passes validation is still rate-limited. -/
theorem C1_amended_ordering (ctx : Ctx) (content : String) :
    ((send ctx content).trace = [Event.validated false] ∨
     (send ctx content).trace = [Event.validated true, Event.identityResolved,
        Event.gateChecked (deriveKey (resolveUser ctx.authOutcome)) false] ∨
     (send ctx content).trace = [Event.validated true, Event.identityResolved,
        Event.gateChecked (deriveKey (resolveUser ctx.authOutcome)) true, Event.inserted]) ∧
    deriveKey none = "anonymous" := by
  refine ⟨?_, rfl⟩
  unfold send
  split
  · exact Or.inl rfl
  · split
    · exact Or.inr (Or.inl rfl)
    · exact Or.inr (Or.inr rfl)

/-- C2: `send` trims the content before length-checking; trimmed length 0 is
rejected with "Message cannot be empty", trimmed length above 2000 with
"Message too long (max 2000 characters)", and any trimmed length between 1 and
2000 (in particular exactly 2000) passes validation. -/
theorem C2_content_validation (ctx : Ctx) (s : String) :
    (jsLength (jsTrim s) = 0 →
      (send ctx s).result = Except.error "Message cannot be empty" ∧
      validateContent s = Except.error "Message cannot be empty") ∧
    (jsLength (jsTrim s) > 2000 →
      (send ctx s).result = Except.error "Message too long (max 2000 characters)" ∧
      validateContent s = Except.error "Message too long (max 2000 characters)") ∧
    (1 ≤ jsLength (jsTrim s) → jsLength (jsTrim s) ≤ 2000 →
      validateContent s = Except.ok (jsTrim s)) := by
  refine ⟨?_, ?_, ?_⟩
  · intro h0
    have hv : validateContent s = Except.error "Message cannot be empty" := by
      unfold validateContent
      rw [h0]
      rfl
    refine ⟨?_, hv⟩
    unfold send
    rw [hv]
  · intro h2
    have hv : validateContent s = Except.error "Message too long (max 2000 characters)" := by
      unfold validateContent
      rw [if_neg (by omega), if_pos h2]
    refine ⟨?_, hv⟩
    unfold send
    rw [hv]
  · intro h1 h2
    unfold validateContent
    rw [if_neg (by omega), if_neg (by omega)]

/-- C2 (witness): the empty string is rejected as empty, 2001 trimmed
characters are rejected as too long, and exactly 2000 trimmed characters pass
validation. -/
theorem C2_content_validation_witness :
    (send ctx0 "").result = Except.error "Message cannot be empty" ∧
    (send ctx0 (strN 2001)).result = Except.error "Message too long (max 2000 characters)" ∧
    validateContent (strN 2000) = Except.ok (strN 2000) := by
  refine ⟨((C2_content_validation ctx0 "").1 (by decide)).1,
          ((C2_content_validation ctx0 (strN 2001)).2.1
            (by rw [jsLength_jsTrim_strN]; omega)).1, ?_⟩
  have h := (C2_content_validation ctx0 (strN 2000)).2.2
    (by rw [jsLength_jsTrim_strN]; omega) (by rw [jsLength_jsTrim_strN])
  rw [jsTrim_strN] at h
  exact h

/-- C3 (counterexample): the claim says a present principal's key is always
its `_id`. The code computes `user?._id || 'anonymous'` with JavaScript `||`,
for which the empty string is falsy: a principal whose `_id` is `""` gets the
key `"anonymous"`, not its `_id`. -/
theorem C3_counterexample :
    deriveKey (some ⟨"", "Nameless"⟩) = "anonymous" ∧
    deriveKey (some ⟨"", "Nameless"⟩) ≠ (AuthUser.mk "" "Nameless")._id := by
  decide

/-- C3 (amended): for a present principal with a nonempty `_id` the key is
that `_id`; for an absent principal (and for the empty-string `_id`, which
real document ids never are) the key is the literal `"anonymous"`; the key is
a deterministic pure function of the principal. -/
theorem C3_amended_deriveKey (u : AuthUser) (h : u._id ≠ "") :
    deriveKey (some u) = u._id ∧ deriveKey none = "anonymous" := by
  refine ⟨?_, rfl⟩
  show (if u._id = "" then "anonymous" else u._id) = u._id
  rw [if_neg h]

/-- C3 (amended, witness): the key of `u1` is `"u1"`. -/
theorem C3_amended_deriveKey_witness :
    deriveKey (some userU1) = "u1" ∧ deriveKey none = "anonymous" :=
  C3_amended_deriveKey userU1 (by decide)

/-- C4: an identity-resolution error in `send` is folded into an absent
principal — the outcome for any erroring auth component equals the outcome for
a missing session — and an admitted anonymous send of "hello" stores the
record with content `"hello"`, no author id, and author name `"Anonymous"`. -/
theorem C4_identity_errors_folded (e : String) (db : DB) (lim : LimiterState)
    (now : Nat) (content : String) :
    send ⟨Except.error e, db, lim, now⟩ content = send ⟨Except.ok none, db, lim, now⟩ content ∧
    (send ctx0 "hello").result = Except.ok 0 ∧
    (send ctx0 "hello").db.rows = [(0, ⟨"hello", none, some "Anonymous"⟩)] := by
  exact ⟨rfl, by decide, by decide⟩

/-- C5: no erroring invocation writes — a `send` that terminates in any error
leaves the store untouched, a `remove` that terminates in any error leaves the
store untouched, and in particular an authenticated caller removing a message
authored by someone else gets the authorization error with the store kept. -/
theorem C5_no_partial_writes (ctx : Ctx) (content : String) (id : Nat) :
    (∀ e, (send ctx content).result = Except.error e → (send ctx content).db = ctx.db) ∧
    (∀ e, (remove ctx id).1 = Except.error e → (remove ctx id).2 = ctx.db) ∧
    (∀ u m, ctx.authOutcome = Except.ok (some u) → ctx.db.getMsg id = some m →
      m.authorId ≠ some u._id →
      remove ctx id = (Except.error "Not authorized to delete this message", ctx.db)) := by
  refine ⟨?_, ?_, ?_⟩
  · intro e
    unfold send
    cases hv : validateContent content with
    | error e2 => intro _; rfl
    | ok trimmed =>
      cases hr : rateLimit RATE_LIMIT_DEFS ctx.limiter "sendMessage"
          (deriveKey (resolveUser ctx.authOutcome)) ctx.now with
      | error e2 => intro _; rfl
      | ok st => intro he; simp at he
  · intro e
    unfold remove
    cases requireAuth ctx.authOutcome with
    | error e2 => intro _; rfl
    | ok u =>
      cases ctx.db.getMsg id with
      | none => intro _; rfl
      | some m =>
        show (if m.authorId ≠ some u._id then
            (Except.error "Not authorized to delete this message", ctx.db)
          else (Except.ok (), ctx.db.deleteMsg id)).1 = Except.error e →
          (if m.authorId ≠ some u._id then
            (Except.error "Not authorized to delete this message", ctx.db)
          else (Except.ok (), ctx.db.deleteMsg id)).2 = ctx.db
        by_cases hne : m.authorId ≠ some u._id
        · rw [if_pos hne]
          intro _; rfl
        · rw [if_neg hne]
          intro he
          simp at he
  · intro u m hauth hget hne
    unfold remove
    rw [hauth]
    show (match ctx.db.getMsg id with
      | none => (Except.error "Message not found", ctx.db)
      | some message =>
        if message.authorId ≠ some u._id then
          (Except.error "Not authorized to delete this message", ctx.db)
        else (Except.ok (), ctx.db.deleteMsg id)) =
      (Except.error "Not authorized to delete this message", ctx.db)
    rw [hget]
    show (if m.authorId ≠ some u._id then _ else _) = _
    rw [if_pos hne]

/-- C5 (witness): authenticated `u1` attempting to delete `u2`'s message is
rejected with the authorization error and the store is unchanged. -/
theorem C5_no_partial_writes_witness :
    remove ctxU1overU2 0 = (Except.error "Not authorized to delete this message", dbWithU2Msg) :=
  (C5_no_partial_writes ctxU1overU2 "" 0).2.2 userU1 msgByU2 rfl (by decide) (by decide)

/-- C6: the configuration handed to the rate-limit component matches the
spec's quota table entry by entry — name, rate, window, capacity — and every
entry satisfies the invariant `capacity ≥ rate`. -/
theorem C6_quota_config :
    RATE_LIMIT_DEFS.map (fun p => (p.1, p.2.rate, p.2.period, p.2.capacity))
      = specQuotaTable.map (fun r => (r.name, r.rate, r.window_ms, r.capacity)) ∧
    (∀ p ∈ RATE_LIMIT_DEFS, p.2.rate ≤ p.2.capacity) ∧
    (∀ r ∈ specQuotaTable, r.kind = "token bucket") := by
  refine ⟨by decide, by decide, by decide⟩

/-- C6 (witness): the `sendMessage` entry satisfies `capacity ≥ rate`. -/
theorem C6_quota_config_witness :
    (("sendMessage", (⟨10, 60000, 15⟩ : RateLimitConfig)) : String × RateLimitConfig).2.rate
      ≤ (⟨10, 60000, 15⟩ : RateLimitConfig).capacity :=
  C6_quota_config.2.1 ("sendMessage", ⟨10, 60000, 15⟩) (by decide)

/-- C7 (counterexample): the claim says that for user `u1`, of 11 sends within
60 seconds starting from a fresh bucket the 11th is rejected. Under the spec's
own token-bucket semantics the `sendMessage` bucket starts full at capacity
15, so all 11 immediate sends are admitted — the 11th succeeds. -/
theorem C7_counterexample :
    ((sendMany ctx1 "hello" 11).1.map exceptOk) = List.replicate 11 true ∧
    (sendMany ctx1 "hello" 11).1.getLast? = some (Except.ok 10) := by
  decide

/-- C7 (amended): for authenticated `u1` sending repeatedly with no time
elapsing, starting from a fresh `sendMessage` bucket, the first 15 sends
succeed and the 16th is rejected by the gate. -/
theorem C7_amended_burst :
    ((sendMany ctx1 "hello" 16).1.map exceptOk) = List.replicate 15 true ++ [false] := by
  decide

/-- C9: `setAdminByEmail` performs no write for any input — the context
(including the store) comes back unchanged and the result does not depend on
the caller's identity or admin status; an email containing `'@'` yields
`success: true` together with the logged instruction string, and any other
email throws "Invalid email address". -/
theorem C9_setAdminByEmail_no_write (ctx ctx2 : Ctx) (email : String) (isAdminArg : Bool) :
    (setAdminByEmail ctx email isAdminArg).2 = ctx ∧
    (setAdminByEmail ctx email isAdminArg).1 = (setAdminByEmail ctx2 email isAdminArg).1 ∧
    (jsIncludesChar email '@' = true →
      (setAdminByEmail ctx email isAdminArg).1 = Except.ok
        ⟨true, email,
         (if isAdminArg then "grant" else "revoke"),
         (if isAdminArg then s!"Add \"{email}\" to ADMIN_EMAILS in convex/lib/config.ts"
          else s!"Remove \"{email}\" from ADMIN_EMAILS in convex/lib/config.ts")⟩) ∧
    (jsIncludesChar email '@' = false →
      (setAdminByEmail ctx email isAdminArg).1 = Except.error "Invalid email address") := by
  have hempty : jsIncludesChar "" '@' = false := rfl
  refine ⟨?_, ?_, ?_, ?_⟩
  · unfold setAdminByEmail
    split
    · rfl
    · rfl
  · unfold setAdminByEmail
    split
    · rfl
    · rfl
  · intro hat
    unfold setAdminByEmail
    rw [if_neg]
    intro hor
    rcases hor with he | hnc
    · rw [he] at hat
      rw [hempty] at hat
      exact Bool.false_ne_true hat
    · rw [hat] at hnc
      exact hnc rfl
  · intro hat
    unfold setAdminByEmail
    rw [if_pos (Or.inr (by rw [hat]; exact Bool.false_ne_true))]

/-- C9 (witness): a well-formed email returns the grant instruction with the
context unchanged, and a malformed one throws. -/
theorem C9_setAdminByEmail_no_write_witness :
    (setAdminByEmail ctx0 "a@b.com" true).2 = ctx0 ∧
    (setAdminByEmail ctx0 "a@b.com" true).1 = Except.ok
      ⟨true, "a@b.com", "grant", "Add \"a@b.com\" to ADMIN_EMAILS in convex/lib/config.ts"⟩ ∧
    (setAdminByEmail ctx0 "nope" false).1 = Except.error "Invalid email address" :=
  ⟨(C9_setAdminByEmail_no_write ctx0 ctx0 "a@b.com" true).1,
   (C9_setAdminByEmail_no_write ctx0 ctx0 "a@b.com" true).2.2.1 (by decide),
   (C9_setAdminByEmail_no_write ctx0 ctx0 "nope" false).2.2.2 (by decide)⟩

/-- C10: for every store whose row ids are in creation order, the public
`list` query returns at most 50 messages, ordered most-recently-created
first (ids strictly decreasing), and leaves the store unchanged. -/
theorem C10_list_query (db : DB) (h : (db.rows.map Prod.fst).Pairwise (· < ·)) :
    (listQuery db).2 = db ∧
    (listQuery db).1.length ≤ 50 ∧
    ((listQuery db).1.map Prod.fst).Pairwise (fun a b => a > b) := by
  refine ⟨rfl, ?_, ?_⟩
  · show (db.rows.reverse.take 50).length ≤ 50
    exact List.length_take_le 50 _
  · show ((db.rows.reverse.take 50).map Prod.fst).Pairwise (fun a b => a > b)
    rw [List.map_take, List.map_reverse]
    have hrev : ((db.rows.map Prod.fst).reverse).Pairwise (fun a b => a > b) := by
      rw [List.pairwise_reverse]
      exact h
    exact hrev.sublist (List.take_sublist 50 _)

/-- C10 (witness): on a three-message store the query returns all three,
newest first, without modifying the store. -/
theorem C10_list_query_witness :
    (listQuery dbThree).2 = dbThree ∧
    (listQuery dbThree).1.length ≤ 50 ∧
    ((listQuery dbThree).1.map Prod.fst).Pairwise (fun a b => a > b) :=
  C10_list_query dbThree (by decide)

theorem tryConsume_at_now (cfg : RateLimitConfig) (v : Nat) (hv : v ≤ cfg.capacity * cfg.period)
    (now : Nat) :
    tryConsume cfg ⟨v, now⟩ now =
      if cfg.period ≤ v then (true, ⟨v - cfg.period, now⟩) else (false, ⟨v, now⟩) := by
  unfold tryConsume refillAt
  simp [Nat.sub_self, Nat.min_eq_right hv]

theorem tryConsume_rejected {cfg : RateLimitConfig} {b : Bucket} {now : Nat}
    (h : (tryConsume cfg b now).1 = false) : tryConsume cfg b now = (false, b) := by
  unfold tryConsume at h ⊢
  by_cases hc : cfg.period ≤ (refillAt cfg b now).scaledValue
  · rw [if_pos hc] at h
    simp at h
  · rw [if_neg hc]

theorem consumeN_full (cfg : RateLimitConfig) (hper : 0 < cfg.period) (now : Nat) :
    ∀ (n m : Nat), m ≤ cfg.capacity →
      (consumeN cfg ⟨m * cfg.period, now⟩ now n).1
        = List.replicate (min n m) true ++ List.replicate (n - m) false := by
  intro n
  induction n with
  | zero => intro m _; simp [consumeN]
  | succ k ih =>
    intro m hm
    have htc := tryConsume_at_now cfg (m * cfg.period) (mul_le_mul_right' hm _) now
    cases m with
    | zero =>
      rw [Nat.zero_mul] at htc ⊢
      rw [if_neg (by omega)] at htc
      have ih0 := ih 0 (Nat.zero_le _)
      rw [Nat.zero_mul] at ih0
      unfold consumeN
      rw [htc]
      simp [ih0, List.replicate_succ]
    | succ m2 =>
      rw [if_pos (by calc cfg.period = 1 * cfg.period := (Nat.one_mul _).symm
            _ ≤ (m2 + 1) * cfg.period := mul_le_mul_right' (by omega) _)] at htc
      have hsub : (m2 + 1) * cfg.period - cfg.period = m2 * cfg.period := by
        rw [Nat.succ_mul]
        omega
      rw [hsub] at htc
      have ihm := ih m2 (by omega)
      unfold consumeN
      rw [htc]
      have h1 : min (k + 1) (m2 + 1) = min k m2 + 1 := by omega
      have h2 : (k + 1) - (m2 + 1) = k - m2 := by omega
      rw [h1, h2]
      simp [ihm, List.replicate_succ]

theorem rateLimitN_eq_consumeN (defs : List (String × RateLimitConfig)) (cfg : RateLimitConfig)
    (name key : String) (now : Nat) (hcfg : defs.lookup name = some cfg) :
    ∀ (n : Nat) (st : LimiterState),
      (rateLimitN defs st name key now n).1
        = (consumeN cfg (currentBucket cfg st name key now) now n).1 := by
  intro n
  induction n with
  | zero => intro st; rfl
  | succ k ih =>
    intro st
    have hrl : rateLimit defs st name key now =
        (if (tryConsume cfg (currentBucket cfg st name key now) now).1 then
          Except.ok (((name, key), (tryConsume cfg (currentBucket cfg st name key now) now).2) :: st)
        else Except.error "Rate limit exceeded, retry later") := by
      unfold rateLimit
      rw [hcfg]
    by_cases hadm : (tryConsume cfg (currentBucket cfg st name key now) now).1 = true
    · rw [if_pos hadm] at hrl
      have hcb : currentBucket cfg
          (((name, key), (tryConsume cfg (currentBucket cfg st name key now) now).2) :: st)
          name key now = (tryConsume cfg (currentBucket cfg st name key now) now).2 := by
        unfold currentBucket
        simp [List.lookup]
      show (rateLimitN defs st name key now (k + 1)).1 = _
      unfold rateLimitN
      rw [hrl]
      show true :: (rateLimitN defs
          (((name, key), (tryConsume cfg (currentBucket cfg st name key now) now).2) :: st)
          name key now k).1 = _
      rw [ih, hcb]
      show _ = (tryConsume cfg (currentBucket cfg st name key now) now).1 ::
        (consumeN cfg (tryConsume cfg (currentBucket cfg st name key now) now).2 now k).1
      rw [hadm]
    · have hadm2 : (tryConsume cfg (currentBucket cfg st name key now) now).1 = false :=
        Bool.eq_false_iff.mpr hadm
      rw [if_neg (by rw [hadm2]; exact Bool.false_ne_true)] at hrl
      have htc := tryConsume_rejected hadm2
      unfold rateLimitN
      rw [hrl]
      show false :: (rateLimitN defs st name key now k).1 = _
      rw [ih]
      show _ = (tryConsume cfg (currentBucket cfg st name key now) now).1 ::
        (consumeN cfg (tryConsume cfg (currentBucket cfg st name key now) now).2 now k).1
      rw [htc]

/-- C8: under the spec's token-bucket semantics with the configured quotas,
for every configured operation and every key, starting from a fresh (full)
bucket with no time elapsing between calls, the first `capacity` calls are
admitted and the `capacity + 1`st is rejected. -/
theorem C8_token_bucket_admission (name key : String) (now : Nat) (cfg : RateLimitConfig)
    (h : RATE_LIMIT_DEFS.lookup name = some cfg) :
    (rateLimitN RATE_LIMIT_DEFS [] name key now (cfg.capacity + 1)).1
      = List.replicate cfg.capacity true ++ [false] := by
  have hper := period_pos_of_lookup h
  rw [rateLimitN_eq_consumeN RATE_LIMIT_DEFS cfg name key now h (cfg.capacity + 1) []]
  have hcb : currentBucket cfg [] name key now = ⟨cfg.capacity * cfg.period, now⟩ := rfl
  rw [hcb]
  rw [consumeN_full cfg hper now (cfg.capacity + 1) cfg.capacity (le_refl _)]
  have h1 : min (cfg.capacity + 1) cfg.capacity = cfg.capacity := by omega
  have h2 : cfg.capacity + 1 - cfg.capacity = 1 := by omega
  rw [h1, h2]
  rfl

/-- C8 (witness): for `sendMessage` (capacity 15) and key `"u1"`, 15
immediate calls are admitted and the 16th is rejected. -/
theorem C8_token_bucket_admission_witness :
    (rateLimitN RATE_LIMIT_DEFS [] "sendMessage" "u1" 0 16).1
      = List.replicate 15 true ++ [false] :=
  C8_token_bucket_admission "sendMessage" "u1" 0 ⟨10, 60000, 15⟩ (by decide)
